import Mathlib

/-!
A shallow embedding of the backtest engine (src/backtest.py), the rule-DSL
token layer and AST builder (src/dsl_parser.py) and the expression evaluator
(src/python_code_generator.py) of this repository, together with theorems
checking the specified behaviour.

Modelling conventions:
* Python floats are modelled as rationals (ℚ); NaN ("undefined") entries of a
  pandas series are modelled as `none` in `List (Option ℚ)`.
* Bar timestamps: the engine uses `df.index[i]` when no `date` column is
  present, i.e. the positional bar index, so dates are modelled as ℕ indices.
* Python float infinity (the `profit_factor` of a run without losing
  trades) is modelled as `⊤ : WithTop ℚ`.
* Computations that raise in Python/numpy are modelled with `Option`:
  `total_return` is `none` when `initial_cash = 0` (Python ZeroDivisionError)
  and `max_drawdown` is `none` on an empty equity curve (numpy `min` of an
  empty array raises).
* The price table and the signal table are taken already zipped, one triple
  `(close, entry, exit)` per bar; the length-mismatch `ValueError` of the
  source is therefore not representable and out of scope here.
* In the entry branch, `cash / (price * (1 + commission))` is total ℚ
  division (Python would raise ZeroDivisionError when the denominator is 0);
  no theorem below touches that degenerate region.
-/

/-- One recorded trade (src/backtest.py lines 64-72 and 94-103).  The dict
appended on a signal exit has no `status` key; the dict appended by the
end-of-run forced close has `status = "open_at_end"`.  The absent key is
modelled as `none`. -/
structure Trade where
  entry_date : ℕ
  exit_date : ℕ
  entry_price : ℚ
  exit_price : ℚ
  position_size : ℚ
  profit : ℚ
  return_pct : ℚ
  status : Option String
deriving DecidableEq

/-- The mutable loop state of `backtest` (src/backtest.py lines 20-27):
`position`, `entry_price`, `entry_date`, `cash`, the trade ledger and the
equity curve accumulated so far. -/
structure BTState where
  position : ℚ
  entry_price : ℚ
  entry_date : ℕ
  cash : ℚ
  trades : List Trade
  equity_curve : List ℚ
deriving DecidableEq

/-- One iteration of the main backtest loop (src/backtest.py lines 30-80):
the entry branch, the mutually exclusive (`elif`) exit branch, then the
equity-curve update. -/
def stepBar (commission : ℚ) (s : BTState) (i : ℕ) (price : ℚ)
    (entry_signal exit_signal : Bool) : BTState :=
  let s1 :=
    if entry_signal = true ∧ s.position = 0 then
      { s with
        position := s.cash / (price * (1 + commission)),
        entry_price := price,
        entry_date := i,
        cash := 0 }
    else if exit_signal = true ∧ 0 < s.position then
      let gross_proceeds := s.position * price
      let commission_cost := gross_proceeds * commission
      let net_proceeds := gross_proceeds - commission_cost
      let profit := net_proceeds - s.position * s.entry_price
      let return_pct := (price / s.entry_price - 1) * 100
      { s with
        cash := net_proceeds,
        position := 0,
        entry_price := 0,
        trades := s.trades ++
          [{ entry_date := s.entry_date, exit_date := i,
             entry_price := s.entry_price, exit_price := price,
             position_size := s.position, profit := profit,
             return_pct := return_pct, status := none }] }
    else s
  let current_equity := if s1.position = 0 then s1.cash else s1.position * price
  { s1 with equity_curve := s1.equity_curve ++ [current_equity] }

/-- The main backtest loop, folding `stepBar` over the bars with the running
positional index. -/
def runBars (commission : ℚ) : BTState → List (ℚ × Bool × Bool) → ℕ → BTState
  | s, [], _ => s
  | s, (p, e, x) :: rest, i =>
      runBars commission (stepBar commission s i p e x) rest (i + 1)

/-- End-of-run handling of a still-open position (src/backtest.py lines
83-107): close at the price of the last bar, append a trade tagged
`"open_at_end"`, and overwrite the final equity-curve entry with the
resulting cash.  `entry_price` is not reset by this block in the source. -/
def forceClose (commission : ℚ) (lastPrice : ℚ) (lastDate : ℕ)
    (s : BTState) : BTState :=
  if 0 < s.position then
    let gross_proceeds := s.position * lastPrice
    let commission_cost := gross_proceeds * commission
    let net_proceeds := gross_proceeds - commission_cost
    let profit := net_proceeds - s.position * s.entry_price
    let return_pct := (lastPrice / s.entry_price - 1) * 100
    { s with
      cash := net_proceeds,
      position := 0,
      trades := s.trades ++
        [{ entry_date := s.entry_date, exit_date := lastDate,
           entry_price := s.entry_price, exit_price := lastPrice,
           position_size := s.position, profit := profit,
           return_pct := return_pct, status := some "open_at_end" }],
      equity_curve := s.equity_curve.dropLast ++ [net_proceeds] }
  else s

/-- `np.maximum.accumulate`, inner recursion carrying the running maximum. -/
def runningMaxAux (m : ℚ) : List ℚ → List ℚ
  | [] => []
  | x :: xs => max m x :: runningMaxAux (max m x) xs

/-- `np.maximum.accumulate` on the equity curve (src/backtest.py line 115). -/
def runningMax : List ℚ → List ℚ
  | [] => []
  | x :: xs => x :: runningMaxAux x xs

/-- `np.ndarray.min`: the minimum of a list, `none` on the empty list (numpy
raises on an empty reduction). -/
def listMinQ : List ℚ → Option ℚ
  | [] => none
  | x :: xs => some (xs.foldl min x)

/-- The result dictionary of `backtest` (src/backtest.py lines 152-168),
minus `sharpe_ratio` (whose annualisation factor `sqrt 252` is irrational
and which no claim mentions). -/
structure BacktestResult where
  trades : List Trade
  total_return : Option ℚ
  max_drawdown : Option ℚ
  num_trades : ℕ
  win_rate : ℚ
  profit_factor : WithTop ℚ
  avg_trade_return : ℚ
  avg_winning_trade : ℚ
  avg_losing_trade : ℚ
  gross_profit : ℚ
  gross_loss : ℚ
  equity_curve : List ℚ
  final_cash : ℚ
  initial_cash : ℚ
deriving DecidableEq

/-- The backtest engine (src/backtest.py `backtest`): loop over the bars,
forced close of a remaining open position, then the metrics block. -/
def backtest (bars : List (ℚ × Bool × Bool)) (initial_cash : ℚ)
    (commission : ℚ) : BacktestResult :=
  let s1 := runBars commission ⟨0, 0, 0, initial_cash, [], []⟩ bars 0
  let s2 := match bars.getLast? with
    | some (p, _, _) => forceClose commission p (bars.length - 1) s1
    | none => s1
  let final_cash := s2.cash
  let trades := s2.trades
  let total_return : Option ℚ :=
    if initial_cash = 0 then none
    else some ((final_cash - initial_cash) / initial_cash * 100)
  let equity_curve := s2.equity_curve
  let drawdown :=
    List.zipWith (fun e m => (e / m - 1) * 100) equity_curve (runningMax equity_curve)
  let max_drawdown := listMinQ drawdown
  let num_trades : ℕ := trades.length
  let profits := trades.map Trade.profit
  let winning_trades := profits.filter (fun p => decide (0 < p))
  let losing_trades := profits.filter (fun p => decide (p < 0))
  let win_rate : ℚ :=
    if 0 < num_trades then (winning_trades.length : ℚ) / (num_trades : ℚ) * 100 else 0
  let gross_profit : ℚ := if 0 < num_trades then winning_trades.sum else 0
  let gross_loss : ℚ := if 0 < num_trades then |losing_trades.sum| else 0
  let profit_factor : WithTop ℚ :=
    if 0 < num_trades then
      (if 0 < gross_loss then ((gross_profit / gross_loss : ℚ) : WithTop ℚ) else ⊤)
    else ((0 : ℚ) : WithTop ℚ)
  let avg_trade_return : ℚ :=
    if 0 < num_trades then (trades.map Trade.return_pct).sum / (num_trades : ℚ) else 0
  let avg_winning_trade : ℚ :=
    if 0 < winning_trades.length then winning_trades.sum / (winning_trades.length : ℚ) else 0
  let avg_losing_trade : ℚ :=
    if 0 < losing_trades.length then losing_trades.sum / (losing_trades.length : ℚ) else 0
  { trades := trades, total_return := total_return, max_drawdown := max_drawdown,
    num_trades := num_trades, win_rate := win_rate, profit_factor := profit_factor,
    avg_trade_return := avg_trade_return, avg_winning_trade := avg_winning_trade,
    avg_losing_trade := avg_losing_trade, gross_profit := gross_profit,
    gross_loss := gross_loss, equity_curve := equity_curve,
    final_cash := final_cash, initial_cash := initial_cash }

/-- The exit branch of the loop body, in closed form: when a position is open
and the exit signal fires, the position is closed at the bar price and a
trade without a `status` key is appended. -/
lemma stepBar_exit_eq (c : ℚ) (s : BTState) (i : ℕ) (p : ℚ) (e : Bool)
    (h : 0 < s.position) :
    stepBar c s i p e true =
      { position := 0, entry_price := 0, entry_date := s.entry_date,
        cash := s.position * p - s.position * p * c,
        trades := s.trades ++
          [{ entry_date := s.entry_date, exit_date := i,
             entry_price := s.entry_price, exit_price := p,
             position_size := s.position,
             profit := s.position * p - s.position * p * c - s.position * s.entry_price,
             return_pct := (p / s.entry_price - 1) * 100, status := none }],
        equity_curve := s.equity_curve ++ [s.position * p - s.position * p * c] } := by
  have h0 : ¬ (e = true ∧ s.position = 0) := by
    rintro ⟨-, h0⟩
    exact absurd h0 (ne_of_gt h)
  simp [stepBar, h0, h]

/-- The forced-close block in closed form: it closes at the given price,
appends an `"open_at_end"` trade and overwrites the last equity entry.
It does not reset `entry_price`. -/
lemma forceClose_eq (c p : ℚ) (d : ℕ) (s : BTState) (h : 0 < s.position) :
    forceClose c p d s =
      { position := 0, entry_price := s.entry_price, entry_date := s.entry_date,
        cash := s.position * p - s.position * p * c,
        trades := s.trades ++
          [{ entry_date := s.entry_date, exit_date := d,
             entry_price := s.entry_price, exit_price := p,
             position_size := s.position,
             profit := s.position * p - s.position * p * c - s.position * s.entry_price,
             return_pct := (p / s.entry_price - 1) * 100,
             status := some "open_at_end" }],
        equity_curve := s.equity_curve.dropLast ++ [s.position * p - s.position * p * c] } := by
  simp [forceClose, h]

/-- The entry branch of the loop body in closed form. -/
lemma stepBar_entry_eq (c : ℚ) (s : BTState) (i : ℕ) (p : ℚ) (x : Bool)
    (h : s.position = 0) :
    stepBar c s i p true x =
      { position := s.cash / (p * (1 + c)), entry_price := p, entry_date := i,
        cash := 0, trades := s.trades,
        equity_curve := s.equity_curve ++
          [if s.cash / (p * (1 + c)) = 0 then 0 else s.cash / (p * (1 + c)) * p] } := by
  simp [stepBar, h]

/-- The no-transition case of the loop body in closed form. -/
lemma stepBar_none_eq (c : ℚ) (s : BTState) (i : ℕ) (p : ℚ) (e x : Bool)
    (h1 : ¬ (e = true ∧ s.position = 0)) (h2 : ¬ (x = true ∧ 0 < s.position)) :
    stepBar c s i p e x =
      { s with equity_curve := s.equity_curve ++
          [if s.position = 0 then s.cash else s.position * p] } := by
  simp only [stepBar, if_neg h1, if_neg h2]

/-- One loop iteration either keeps the ledger or appends a single trade
whose `status` is `none`. -/
lemma stepBar_trades_cases (c : ℚ) (s : BTState) (i : ℕ) (p : ℚ) (e x : Bool) :
    (stepBar c s i p e x).trades = s.trades ∨
    (stepBar c s i p e x).trades = s.trades ++
      [{ entry_date := s.entry_date, exit_date := i, entry_price := s.entry_price,
         exit_price := p, position_size := s.position,
         profit := s.position * p - s.position * p * c - s.position * s.entry_price,
         return_pct := (p / s.entry_price - 1) * 100, status := none }] := by
  simp only [stepBar]
  split_ifs
  · exact Or.inl rfl
  · exact Or.inr rfl
  · exact Or.inl rfl

/-- The forced close either keeps the ledger (no open position) or appends a
single `"open_at_end"` trade. -/
lemma forceClose_trades_cases (c p : ℚ) (d : ℕ) (s : BTState) :
    (forceClose c p d s).trades = s.trades ∨
    (forceClose c p d s).trades = s.trades ++
      [{ entry_date := s.entry_date, exit_date := d, entry_price := s.entry_price,
         exit_price := p, position_size := s.position,
         profit := s.position * p - s.position * p * c - s.position * s.entry_price,
         return_pct := (p / s.entry_price - 1) * 100, status := some "open_at_end" }] := by
  simp only [forceClose]
  split_ifs
  · exact Or.inr rfl
  · exact Or.inl rfl

/-- Every trade appended during the loop has `status = none`; the loop
preserves any status invariant on the ledger. -/
lemma runBars_status (c : ℚ) (bars : List (ℚ × Bool × Bool)) (i : ℕ) (s : BTState)
    (h : ∀ t ∈ s.trades, t.status = none ∨ t.status = some "open_at_end") :
    ∀ t ∈ (runBars c s bars i).trades,
      t.status = none ∨ t.status = some "open_at_end" := by
  induction bars generalizing s i with
  | nil => exact h
  | cons b rest ih =>
      obtain ⟨p, e, x⟩ := b
      refine ih (i + 1) (stepBar c s i p e x) ?_
      intro t ht
      rcases stepBar_trades_cases c s i p e x with hc | hc <;> rw [hc] at ht
      · exact h t ht
      · simp only [List.mem_append, List.mem_singleton] at ht
        rcases ht with ht | ht
        · exact h t ht
        · subst ht; exact Or.inl rfl

/-- The trade ledger of a `backtest` run, before the metrics block. -/
lemma backtest_trades_eq (bars : List (ℚ × Bool × Bool)) (ic c : ℚ) :
    (backtest bars ic c).trades =
      (match bars.getLast? with
        | some (p, _, _) =>
            forceClose c p (bars.length - 1) (runBars c ⟨0, 0, 0, ic, [], []⟩ bars 0)
        | none => runBars c ⟨0, 0, 0, ic, [], []⟩ bars 0).trades := rfl

/-- Every trade recorded by `backtest` either has no status key (`none`,
signal-driven exit) or is tagged `"open_at_end"` (forced close). -/
lemma backtest_status_dichotomy (bars : List (ℚ × Bool × Bool)) (ic c : ℚ) :
    ∀ t ∈ (backtest bars ic c).trades,
      t.status = none ∨ t.status = some "open_at_end" := by
  intro t ht
  have hrun : ∀ t ∈ (runBars c ⟨0, 0, 0, ic, [], []⟩ bars 0).trades,
      t.status = none ∨ t.status = some "open_at_end" :=
    runBars_status c bars 0 _ (by intro t h; cases h)
  rw [backtest_trades_eq] at ht
  cases hl : bars.getLast? with
  | none =>
      rw [hl] at ht
      exact hrun t ht
  | some b =>
      obtain ⟨p, e, x⟩ := b
      rw [hl] at ht
      rcases forceClose_trades_cases c p (bars.length - 1)
          (runBars c ⟨0, 0, 0, ic, [], []⟩ bars 0) with hc | hc <;> rw [hc] at ht
      · exact hrun t ht
      · simp only [List.mem_append, List.mem_singleton] at ht
        rcases ht with ht | ht
        · exact hrun t ht
        · subst ht; exact Or.inr rfl

/-- **C1** counterexample: in the run [(100, entry), (110, exit)] with
commission 0, the signal-driven exit appends a trade dict with *no* `status`
key (`none`), not one whose status field is the literal `"closed"`. -/
theorem backtest_exit_trade_has_no_status_key :
    (backtest [(100, true, false), (110, false, true)] 1000 0).trades.map Trade.status =
      [none] ∧ (none : Option String) ≠ some "closed" := by
  constructor
  · norm_num [backtest, runBars, stepBar, forceClose]
  · simp

/-- **C1** (amended): when the state is Long (`0 < position`) and the exit
signal is true at a bar with close price `p`, the engine closes to Flat with
`gross = position * p`, `commission_cost = gross * commission`,
`net = gross - commission_cost`, `profit = net - position * entry_price`,
`return_pct = (p / entry_price - 1) * 100`, sets `cash = net` and
`position = 0`, and appends a Trade record carrying no explicit status key
(`status = none`); the reporting layer reads a missing status as `"closed"`,
so the defaulted status of every recorded trade is `"closed"` or
`"open_at_end"`. -/
theorem backtest_exit_transition_closes_to_flat :
    (∀ (c : ℚ) (s : BTState) (i : ℕ) (p : ℚ) (e : Bool), 0 < s.position →
        stepBar c s i p e true =
          { position := 0, entry_price := 0, entry_date := s.entry_date,
            cash := s.position * p - s.position * p * c,
            trades := s.trades ++
              [{ entry_date := s.entry_date, exit_date := i,
                 entry_price := s.entry_price, exit_price := p,
                 position_size := s.position,
                 profit := s.position * p - s.position * p * c - s.position * s.entry_price,
                 return_pct := (p / s.entry_price - 1) * 100, status := none }],
            equity_curve := s.equity_curve ++ [s.position * p - s.position * p * c] }) ∧
    (∀ (bars : List (ℚ × Bool × Bool)) (ic c : ℚ),
        ∀ t ∈ (backtest bars ic c).trades,
          t.status.getD "closed" = "closed" ∨ t.status.getD "closed" = "open_at_end") := by
  constructor
  · exact fun c s i p e h => stepBar_exit_eq c s i p e h
  · intro bars ic c t ht
    rcases backtest_status_dichotomy bars ic c t ht with h | h <;> rw [h] <;> simp

/-- Witness for `backtest_exit_transition_closes_to_flat` at a concrete Long
state and a concrete one-bar run. -/
theorem backtest_exit_transition_closes_to_flat_witness :
    (stepBar 0 ⟨10, 100, 0, 0, [], [1000]⟩ 1 110 false true =
      { position := 0, entry_price := 0, entry_date := 0, cash := 1100,
        trades := [{ entry_date := 0, exit_date := 1, entry_price := 100,
                     exit_price := 110, position_size := 10, profit := 100,
                     return_pct := 10, status := none }],
        equity_curve := [1000, 1100] }) ∧
    ((⟨0, 0, 100, 100, 10, 0, 0, some "open_at_end"⟩ : Trade).status.getD "closed" = "closed" ∨
     (⟨0, 0, 100, 100, 10, 0, 0, some "open_at_end"⟩ : Trade).status.getD "closed" = "open_at_end") := by
  constructor
  · have h := backtest_exit_transition_closes_to_flat.1 0 ⟨10, 100, 0, 0, [], [1000]⟩ 1 110
      false (by norm_num)
    rw [h]
    norm_num
  · refine backtest_exit_transition_closes_to_flat.2 [(100, true, false)] 1000 0 _ ?_
    norm_num [backtest, runBars, stepBar, forceClose]

/-- **C2**: for prices [100, 110, 105, 120], entry only at bar 0, exit only
at bar 3, initial cash 100000 and commission 0, the run records exactly one
trade with position_size 1000, profit 20000, return_pct 20, and its
total_return is 20. -/
theorem backtest_single_trade_scenario :
    (backtest [(100, true, false), (110, false, false), (105, false, false), (120, false, true)]
        100000 0).num_trades = 1 ∧
    (backtest [(100, true, false), (110, false, false), (105, false, false), (120, false, true)]
        100000 0).trades.map Trade.position_size = [1000] ∧
    (backtest [(100, true, false), (110, false, false), (105, false, false), (120, false, true)]
        100000 0).trades.map Trade.profit = [20000] ∧
    (backtest [(100, true, false), (110, false, false), (105, false, false), (120, false, true)]
        100000 0).trades.map Trade.return_pct = [20] ∧
    (backtest [(100, true, false), (110, false, false), (105, false, false), (120, false, true)]
        100000 0).total_return = some 20 := by
  refine ⟨?_, ?_, ?_, ?_, ?_⟩ <;>
    norm_num [backtest, runBars, stepBar, forceClose]

/-- **C3**: if the state is still Long after the last bar, the engine closes
at the last price with the same proceeds/commission/profit formulas, appends
exactly one additional trade tagged `"open_at_end"`, and overwrites the last
equity entry with the resulting cash; concretely, for the 3-bar series
[100, 105, 110] with entry only at bar 0 and no exit signal, exactly one
trade is recorded, with status `"open_at_end"` and exit_price 110. -/
theorem backtest_forced_close_end_of_run :
    (∀ (c p : ℚ) (d : ℕ) (s : BTState), 0 < s.position →
        forceClose c p d s =
          { position := 0, entry_price := s.entry_price, entry_date := s.entry_date,
            cash := s.position * p - s.position * p * c,
            trades := s.trades ++
              [{ entry_date := s.entry_date, exit_date := d,
                 entry_price := s.entry_price, exit_price := p,
                 position_size := s.position,
                 profit := s.position * p - s.position * p * c - s.position * s.entry_price,
                 return_pct := (p / s.entry_price - 1) * 100,
                 status := some "open_at_end" }],
            equity_curve := s.equity_curve.dropLast ++
              [s.position * p - s.position * p * c] }) ∧
    ((backtest [(100, true, false), (105, false, false), (110, false, false)] 100000 0).trades.map
        Trade.status = [some "open_at_end"] ∧
     (backtest [(100, true, false), (105, false, false), (110, false, false)] 100000 0).trades.map
        Trade.exit_price = [110] ∧
     (backtest [(100, true, false), (105, false, false), (110, false, false)] 100000 0).equity_curve =
        [100000, 105000, 110000]) := by
  refine ⟨fun c p d s h => forceClose_eq c p d s h, ?_, ?_, ?_⟩ <;>
    norm_num [backtest, runBars, stepBar, forceClose]

/-- Witness for `backtest_forced_close_end_of_run` at a concrete Long
state. -/
theorem backtest_forced_close_end_of_run_witness :
    forceClose 0 110 2 ⟨1000, 100, 0, 0, [], [100000, 105000, 110000]⟩ =
      { position := 0, entry_price := 100, entry_date := 0, cash := 110000,
        trades := [{ entry_date := 0, exit_date := 2, entry_price := 100,
                     exit_price := 110, position_size := 1000, profit := 10000,
                     return_pct := 10, status := some "open_at_end" }],
        equity_curve := [100000, 105000, 110000] } := by
  have h := backtest_forced_close_end_of_run.1 0 110 2
    ⟨1000, 100, 0, 0, [], [100000, 105000, 110000]⟩ (by norm_num)
  rw [h]
  norm_num

/-- Loop invariant: if a position is open it was entered at an earlier bar,
and every signal-closed trade so far exits strictly after its entry. -/
lemma runBars_closed_invariant (c : ℚ) (bars : List (ℚ × Bool × Bool)) (i : ℕ) (s : BTState)
    (hpos : 0 < s.position → s.entry_date < i)
    (hts : ∀ t ∈ s.trades, t.status = none → t.entry_date < t.exit_date) :
    (0 < (runBars c s bars i).position → (runBars c s bars i).entry_date < i + bars.length) ∧
    (∀ t ∈ (runBars c s bars i).trades, t.status = none → t.entry_date < t.exit_date) := by
  induction bars generalizing s i with
  | nil =>
      refine ⟨fun h => ?_, hts⟩
      simpa using hpos h
  | cons b rest ih =>
      obtain ⟨p, e, x⟩ := b
      simp only [runBars, List.length_cons]
      have key : (0 < (stepBar c s i p e x).position → (stepBar c s i p e x).entry_date < i + 1) ∧
          (∀ t ∈ (stepBar c s i p e x).trades, t.status = none → t.entry_date < t.exit_date) := by
        by_cases h1 : e = true ∧ s.position = 0
        · obtain ⟨he, hp0⟩ := h1
          subst he
          rw [stepBar_entry_eq c s i p x hp0]
          exact ⟨fun _ => Nat.lt_succ_self i, hts⟩
        · by_cases h2 : x = true ∧ 0 < s.position
          · obtain ⟨hx, hpp⟩ := h2
            subst hx
            rw [stepBar_exit_eq c s i p e hpp]
            refine ⟨fun h => absurd h (by norm_num), ?_⟩
            intro t ht hst
            simp only [List.mem_append, List.mem_singleton] at ht
            rcases ht with ht | ht
            · exact hts t ht hst
            · subst ht
              exact hpos hpp
          · rw [stepBar_none_eq c s i p e x h1 h2]
            exact ⟨fun h => lt_trans (hpos h) (Nat.lt_succ_self i), hts⟩
      have hrec := ih (i + 1) (stepBar c s i p e x) key.1 key.2
      refine ⟨fun h => ?_, hrec.2⟩
      have := hrec.1 h
      omega

/-- **C9**: the entry and exit branch guards are mutually exclusive at every
bar (the exit branch is an `elif` and requires an open position, the entry
branch a flat one), so a trade closed by an exit signal has its exit bar
strictly later than its entry bar; a trade whose exit bar equals its entry
bar can only be the end-of-run forced closure (`status = "open_at_end"`). -/
theorem backtest_entry_exit_branches_exclusive :
    (∀ (s : BTState) (e x : Bool),
        ¬ ((e = true ∧ s.position = 0) ∧ (x = true ∧ 0 < s.position))) ∧
    (∀ (bars : List (ℚ × Bool × Bool)) (ic c : ℚ),
        ∀ t ∈ (backtest bars ic c).trades, t.status = none → t.entry_date < t.exit_date) ∧
    (∀ (bars : List (ℚ × Bool × Bool)) (ic c : ℚ),
        ∀ t ∈ (backtest bars ic c).trades, t.entry_date = t.exit_date →
          t.status = some "open_at_end") := by
  have main : ∀ (bars : List (ℚ × Bool × Bool)) (ic c : ℚ),
      ∀ t ∈ (backtest bars ic c).trades, t.status = none → t.entry_date < t.exit_date := by
    intro bars ic c t ht hst
    have hrun := runBars_closed_invariant c bars 0 ⟨0, 0, 0, ic, [], []⟩
      (fun h => absurd h (by norm_num)) (by intro t h; cases h)
    rw [backtest_trades_eq] at ht
    cases hl : bars.getLast? with
    | none =>
        rw [hl] at ht
        exact hrun.2 t ht hst
    | some b =>
        obtain ⟨p, e, x⟩ := b
        rw [hl] at ht
        rcases forceClose_trades_cases c p (bars.length - 1)
            (runBars c ⟨0, 0, 0, ic, [], []⟩ bars 0) with hc | hc <;> rw [hc] at ht
        · exact hrun.2 t ht hst
        · simp only [List.mem_append, List.mem_singleton] at ht
          rcases ht with ht | ht
          · exact hrun.2 t ht hst
          · subst ht
            cases hst
  refine ⟨?_, main, ?_⟩
  · rintro s e x ⟨⟨-, h0⟩, -, h2⟩
    rw [h0] at h2
    exact lt_irrefl 0 h2
  · intro bars ic c t ht heq
    rcases backtest_status_dichotomy bars ic c t ht with h | h
    · exact absurd heq (Nat.ne_of_lt (main bars ic c t ht h))
    · exact h

/-- Witness for `backtest_entry_exit_branches_exclusive`: in the concrete run
[(100, entry), (110, exit)], the recorded signal-closed trade enters at bar 0
and exits at bar 1. -/
theorem backtest_entry_exit_branches_exclusive_witness :
    ({ entry_date := 0, exit_date := 1, entry_price := 100, exit_price := 110,
       position_size := 10, profit := 100, return_pct := 10,
       status := none } : Trade).entry_date <
    ({ entry_date := 0, exit_date := 1, entry_price := 100, exit_price := 110,
       position_size := 10, profit := 100, return_pct := 10,
       status := none } : Trade).exit_date := by
  refine backtest_entry_exit_branches_exclusive.2.1 [(100, true, false), (110, false, true)]
    1000 0 _ ?_ rfl
  norm_num [backtest, runBars, stepBar, forceClose]

/-- With both signals false at every bar, the loop never changes the state
and the equity curve records `cash` once per bar. -/
lemma runBars_no_signals (c : ℚ) (bars : List (ℚ × Bool × Bool)) (i : ℕ)
    (ep : ℚ) (ed : ℕ) (cash : ℚ) (tr : List Trade) (eq : List ℚ)
    (h : ∀ b ∈ bars, b.2.1 = false ∧ b.2.2 = false) :
    runBars c ⟨0, ep, ed, cash, tr, eq⟩ bars i =
      ⟨0, ep, ed, cash, tr, eq ++ List.replicate bars.length cash⟩ := by
  induction bars generalizing i eq with
  | nil => simp [runBars]
  | cons b rest ih =>
      obtain ⟨p, e, x⟩ := b
      have he : e = false := (h _ (List.mem_cons_self _ _)).1
      have hx : x = false := (h _ (List.mem_cons_self _ _)).2
      subst he
      subst hx
      simp only [runBars, List.length_cons]
      have hstep : stepBar c ⟨0, ep, ed, cash, tr, eq⟩ i p false false =
          ⟨0, ep, ed, cash, tr, eq ++ [cash]⟩ := by
        rw [stepBar_none_eq c ⟨0, ep, ed, cash, tr, eq⟩ i p false false
          (by rintro ⟨h', -⟩; cases h') (by rintro ⟨h', -⟩; cases h')]
        simp
      rw [hstep, ih (i + 1) (eq ++ [cash]) (fun b hb => h b (List.mem_cons_of_mem _ hb))]
      simp [List.replicate_succ]

/-- `np.maximum.accumulate` of a constant list is the list itself. -/
lemma runningMaxAux_const (m : ℚ) (n : ℕ) :
    runningMaxAux m (List.replicate n m) = List.replicate n m := by
  induction n with
  | zero => simp [runningMaxAux]
  | succ k ih => simp [List.replicate_succ, runningMaxAux, max_self, ih]

/-- `np.maximum.accumulate` of a constant equity curve. -/
lemma runningMax_const (a : ℚ) (n : ℕ) :
    runningMax (List.replicate n a) = List.replicate n a := by
  cases n with
  | zero => simp [runningMax]
  | succ k => simp [List.replicate_succ, runningMax, runningMaxAux_const]

/-- Elementwise combination of two constant lists of equal length. -/
lemma zipWith_replicate_const {α β γ : Type} (f : α → β → γ) (a : α) (b : β) (n : ℕ) :
    List.zipWith f (List.replicate n a) (List.replicate n b) =
      List.replicate n (f a b) := by
  induction n with
  | zero => simp
  | succ k ih => simp [List.replicate_succ, ih]

/-- Folding `min` over a constant list. -/
lemma foldl_min_const (a : ℚ) (n : ℕ) : (List.replicate n a).foldl min a = a := by
  induction n with
  | zero => simp
  | succ k ih => simp [List.replicate_succ, min_self, ih]

/-- The minimum of a nonempty constant list. -/
lemma listMinQ_const (a : ℚ) (n : ℕ) :
    listMinQ (List.replicate (n + 1) a) = some a := by
  simp [List.replicate_succ, listMinQ, foldl_min_const]

/-- **C7** counterexample: on the empty price series the drawdown reduction
is over an empty array and `max_drawdown` is undefined (numpy raises, here
`none`), and with `initial_cash = 0` the `total_return` division raises
(here `none`); neither equals 0, so the claim fails for empty series and for
zero initial cash even with all signals false. -/
theorem backtest_zero_signals_degenerate :
    (backtest [] 100000 0).max_drawdown = none ∧
    (backtest [((100 : ℚ), false, false)] 0 0).total_return = none ∧
    (none : Option ℚ) ≠ some 0 := by
  refine ⟨?_, ?_, by simp⟩ <;>
    norm_num [backtest, runBars, stepBar, forceClose, listMinQ, runningMax]

/-- **C7** (amended): for every *nonempty* price series, every
`initial_cash ≠ 0` and every commission, if both signals are false at every
bar then the run records no trades, the equity curve is constant at
`initial_cash` with one value per bar, `total_return = 0` and
`max_drawdown = 0`. -/
theorem backtest_zero_signals_conservation (bars : List (ℚ × Bool × Bool)) (ic c : ℚ)
    (hsig : ∀ b ∈ bars, b.2.1 = false ∧ b.2.2 = false)
    (hne : bars ≠ []) (hic : ic ≠ 0) :
    (backtest bars ic c).num_trades = 0 ∧
    (backtest bars ic c).equity_curve = List.replicate bars.length ic ∧
    (backtest bars ic c).total_return = some 0 ∧
    (backtest bars ic c).max_drawdown = some 0 := by
  have hrun := runBars_no_signals c bars 0 0 0 ic [] [] hsig
  have hs2 : (match bars.getLast? with
      | some (p, _, _) =>
          forceClose c p (bars.length - 1) (runBars c ⟨0, 0, 0, ic, [], []⟩ bars 0)
      | none => runBars c ⟨0, 0, 0, ic, [], []⟩ bars 0) =
      (⟨0, 0, 0, ic, [], List.replicate bars.length ic⟩ : BTState) := by
    cases bars.getLast? with
    | none => exact hrun
    | some b =>
        obtain ⟨p, e, x⟩ := b
        rw [hrun]
        simp [forceClose]
  obtain ⟨m, hm⟩ : ∃ m, bars.length = m + 1 :=
    Nat.exists_eq_succ_of_ne_zero (by simpa [List.length_eq_zero] using hne)
  refine ⟨?_, ?_, ?_, ?_⟩
  · simp [backtest, hs2]
  · simp only [backtest, hs2]
  · simp only [backtest, hs2]
    rw [if_neg hic]
    simp
  · simp only [backtest, hs2]
    rw [runningMax_const, zipWith_replicate_const]
    have hz : (ic / ic - 1) * 100 = 0 := by
      rw [div_self hic]
      ring
    rw [hz, hm, listMinQ_const]

/-- Witness for `backtest_zero_signals_conservation` on a one-bar run with
all signals false. -/
theorem backtest_zero_signals_conservation_witness :
    (backtest [((100 : ℚ), false, false)] 5 0).num_trades = 0 ∧
    (backtest [((100 : ℚ), false, false)] 5 0).equity_curve =
      List.replicate [((100 : ℚ), false, false)].length (5 : ℚ) ∧
    (backtest [((100 : ℚ), false, false)] 5 0).total_return = some 0 ∧
    (backtest [((100 : ℚ), false, false)] 5 0).max_drawdown = some 0 :=
  backtest_zero_signals_conservation [((100 : ℚ), false, false)] 5 0
    (by norm_num) (by norm_num) (by norm_num)

/-- **C8** counterexample: in a run whose only trade has profit exactly 0
(entry and exit both at price 100, commission 0), `gross_loss = 0` and there
is no winning trade, yet the code sets `profit_factor = +inf` (`⊤`); so
"profit_factor is +infinity exactly when gross_loss == 0 and there is at
least one winning trade" fails — no winning trade exists here. -/
theorem backtest_profit_factor_inf_without_winners :
    (backtest [(100, true, false), (100, false, true)] 100000 0).num_trades = 1 ∧
    (backtest [(100, true, false), (100, false, true)] 100000 0).profit_factor = ⊤ ∧
    ((backtest [(100, true, false), (100, false, true)] 100000 0).trades.map
        Trade.profit).filter (fun p => decide (0 < p)) = [] ∧
    (backtest [(100, true, false), (100, false, true)] 100000 0).gross_loss = 0 := by
  refine ⟨?_, ?_, ?_, ?_⟩ <;>
    norm_num [backtest, runBars, stepBar, forceClose]

/-- **C8** (amended): for every run with at least one trade, `gross_profit`
is the sum of the positive trade profits, `gross_loss` is the absolute value
of the sum of the negative trade profits, `profit_factor` equals
`gross_profit / gross_loss` whenever `gross_loss ≠ 0`, and `profit_factor`
is `+inf` (`⊤`) exactly when `gross_loss = 0` — regardless of whether any
winning trade exists. -/
theorem backtest_profit_factor_formulas (bars : List (ℚ × Bool × Bool)) (ic c : ℚ)
    (h : 0 < (backtest bars ic c).num_trades) :
    (backtest bars ic c).gross_profit =
      (((backtest bars ic c).trades.map Trade.profit).filter (fun p => decide (0 < p))).sum ∧
    (backtest bars ic c).gross_loss =
      |(((backtest bars ic c).trades.map Trade.profit).filter (fun p => decide (p < 0))).sum| ∧
    ((backtest bars ic c).profit_factor = ⊤ ↔ (backtest bars ic c).gross_loss = 0) ∧
    ((backtest bars ic c).gross_loss ≠ 0 →
      (backtest bars ic c).profit_factor =
        (((backtest bars ic c).gross_profit / (backtest bars ic c).gross_loss : ℚ) :
          WithTop ℚ)) := by
  have e1 : (backtest bars ic c).gross_profit =
      if 0 < (backtest bars ic c).num_trades then
        (((backtest bars ic c).trades.map Trade.profit).filter (fun p => decide (0 < p))).sum
      else 0 := rfl
  have e2 : (backtest bars ic c).gross_loss =
      if 0 < (backtest bars ic c).num_trades then
        |(((backtest bars ic c).trades.map Trade.profit).filter (fun p => decide (p < 0))).sum|
      else 0 := rfl
  have e3 : (backtest bars ic c).profit_factor =
      if 0 < (backtest bars ic c).num_trades then
        (if 0 < (backtest bars ic c).gross_loss then
          (((backtest bars ic c).gross_profit / (backtest bars ic c).gross_loss : ℚ) :
            WithTop ℚ)
         else ⊤)
      else ((0 : ℚ) : WithTop ℚ) := rfl
  have hgl : (backtest bars ic c).gross_loss =
      |(((backtest bars ic c).trades.map Trade.profit).filter (fun p => decide (p < 0))).sum| := by
    rw [e2, if_pos h]
  have hglnn : 0 ≤ (backtest bars ic c).gross_loss := by
    rw [hgl]
    exact abs_nonneg _
  have hpf : (backtest bars ic c).profit_factor =
      if 0 < (backtest bars ic c).gross_loss then
        (((backtest bars ic c).gross_profit / (backtest bars ic c).gross_loss : ℚ) :
          WithTop ℚ)
      else ⊤ := by
    rw [e3, if_pos h]
  refine ⟨by rw [e1, if_pos h], hgl, ?_, ?_⟩
  · rw [hpf]
    by_cases hz : 0 < (backtest bars ic c).gross_loss
    · rw [if_pos hz]
      constructor
      · intro hcontr
        exact absurd hcontr (WithTop.coe_ne_top)
      · intro h0
        rw [h0] at hz
        exact absurd hz (lt_irrefl 0)
    · rw [if_neg hz]
      have h0 : (backtest bars ic c).gross_loss = 0 := le_antisymm (not_lt.mp hz) hglnn
      simp [h0]
  · intro hnz
    have hz : 0 < (backtest bars ic c).gross_loss := lt_of_le_of_ne hglnn (Ne.symm hnz)
    rw [hpf, if_pos hz]

/-- Witness for `backtest_profit_factor_formulas` on a concrete two-bar run
with one profitable trade. -/
theorem backtest_profit_factor_formulas_witness :
    (backtest [(100, true, false), (110, false, true)] 100000 0).gross_profit =
      (((backtest [(100, true, false), (110, false, true)] 100000 0).trades.map
        Trade.profit).filter (fun p => decide (0 < p))).sum ∧
    (backtest [(100, true, false), (110, false, true)] 100000 0).gross_loss =
      |(((backtest [(100, true, false), (110, false, true)] 100000 0).trades.map
        Trade.profit).filter (fun p => decide (p < 0))).sum| ∧
    ((backtest [(100, true, false), (110, false, true)] 100000 0).profit_factor = ⊤ ↔
      (backtest [(100, true, false), (110, false, true)] 100000 0).gross_loss = 0) ∧
    ((backtest [(100, true, false), (110, false, true)] 100000 0).gross_loss ≠ 0 →
      (backtest [(100, true, false), (110, false, true)] 100000 0).profit_factor =
        (((backtest [(100, true, false), (110, false, true)] 100000 0).gross_profit /
          (backtest [(100, true, false), (110, false, true)] 100000 0).gross_loss : ℚ) :
          WithTop ℚ)) :=
  backtest_profit_factor_formulas [(100, true, false), (110, false, true)] 100000 0
    (by norm_num [backtest, runBars, stepBar, forceClose])

/-! ## The rule DSL: token layer and AST builder (src/dsl_parser.py) -/

/-- Python `str.lower()` as used by the AST builder; on the ASCII token
strings in play this is `String.toLower`, written over `String.data` so
that it reduces definitionally. -/
def pyLower (s : String) : String := ⟨s.data.map Char.toLower⟩

/-- The `LOGIC` terminal of `dsl_grammar` (src/dsl_parser.py line 31):
exactly the two uppercase literal alternatives. -/
def LOGIC_tokens : List String := ["AND", "OR"]

/-- The `OP` terminal of `dsl_grammar` (lines 32-35): the six comparison
symbols, the crossing keywords in all-uppercase and in all-lowercase, and
the two lowercase-only keywords `rise_above` and `drop_below`. -/
def OP_tokens : List String :=
  [">=", "<=", ">", "<", "==", "!=",
   "CROSS_ABOVE", "CROSS_BELOW", "cross_above", "cross_below",
   "rise_above", "drop_below"]

/-- A string is lexable as a `LOGIC` token iff it is one of the literal
alternatives of the terminal. -/
def LOGIC_accepts (s : String) : Prop := s ∈ LOGIC_tokens

instance (s : String) : Decidable (LOGIC_accepts s) :=
  inferInstanceAs (Decidable (s ∈ LOGIC_tokens))

/-- A string is lexable as an `OP` token iff it is one of the literal
alternatives of the terminal. -/
def OP_accepts (s : String) : Prop := s ∈ OP_tokens

instance (s : String) : Decidable (OP_accepts s) :=
  inferInstanceAs (Decidable (s ∈ OP_tokens))

/-- `DSLASTBuilder.OP` (src/dsl_parser.py lines 109-110): the matched
operator token is normalised to lowercase in the AST. -/
def OP_build (tok : String) : String := pyLower tok

/-- `DSLASTBuilder.LOGIC` (lines 106-107): the logic token is kept as is. -/
def LOGIC_build (tok : String) : String := tok

/-- An AST node as built by `DSLASTBuilder`: the Python dicts tagged
`series`, `number`, `shift`, `min`, `max`, `indicator` and `binary_op`.
The `indicator` node keeps the raw parsed NUMBER parameter (a float in the
source); the evaluator converts it with `int()`. -/
inductive ASTNode where
  | series (value : String)
  | number (value : ℚ)
  | shift (field : String) (periods : ℕ)
  | min (field : String) (window : ℕ)
  | max (field : String) (window : ℕ)
  | indicator (name : String) (field : String) (param : ℚ)
  | binary_op (left : ASTNode) (op : String) (right : ASTNode)
deriving DecidableEq

/-- Python `int()` on a parsed NUMBER.  The grammar NUMBER token is nonnegative,
so truncation toward zero equals `num / den` on the rational. -/
def pyInt (q : ℚ) : ℕ := q.num.toNat / q.den

/-- `DSLASTBuilder.function_call` (lines 87-98): the function name is
lowercased; `min`/`max` become rolling nodes, anything else becomes an
indicator node — no validation of the name happens at build time. -/
def function_call (name field : String) (param : ℚ) : ASTNode :=
  let func_name := pyLower name
  if func_name = "min" then ASTNode.min field (pyInt param)
  else if func_name = "max" then ASTNode.max field (pyInt param)
  else ASTNode.indicator func_name field param

/-- `DSLASTBuilder.condition` (lines 72-78) composed with the `OP` callback:
a condition becomes a `binary_op` node whose op string is the lowercased
operator token. -/
def condition_build (left : ASTNode) (opTok : String) (right : ASTNode) : ASTNode :=
  ASTNode.binary_op left (OP_build opTok) right

/-! ## The expression evaluator (src/python_code_generator.py) -/

/-- A runtime value of `generate_expression`: a numeric scalar, a numeric
pandas series (`none` = NaN), a numpy boolean scalar, or a boolean series
(pandas comparisons yield `False`, never NaN, at missing entries). -/
inductive Val where
  | scalar (q : ℚ)
  | series (l : List (Option ℚ))
  | bscalar (b : Bool)
  | bseries (l : List Bool)
deriving DecidableEq

/-- The value of an operand at bar `t`: scalars broadcast to every bar,
booleans order-compare as 0/1 as in pandas, out-of-range indices are
`none`. -/
def Val.atBar : Val → ℕ → Option ℚ
  | .scalar q, _ => some q
  | .bscalar b, _ => some (if b then 1 else 0)
  | .series l, t => (l.get? t).join
  | .bseries l, t => (l.get? t).map (fun b => if b then 1 else 0)

/-- The one-bar-shifted value used by the crossing operators:
`left.shift(1) if isinstance(left, pd.Series) else left`
(src/python_code_generator.py lines 122-123 and 129-130) — a scalar is its
own previous value, a series shifts by one bar with NaN at bar 0. -/
def Val.prevAtBar : Val → ℕ → Option ℚ
  | .scalar q, _ => some q
  | .bscalar b, _ => some (if b then 1 else 0)
  | .series l, t => if t = 0 then none else (Val.series l).atBar (t - 1)
  | .bseries l, t => if t = 0 then none else (Val.bseries l).atBar (t - 1)

/-- Elementwise `<=` with pandas NaN semantics (comparisons with a missing
value are `False`). -/
def optLe : Option ℚ → Option ℚ → Bool
  | some a, some b => decide (a ≤ b)
  | _, _ => false

/-- Elementwise `<` with pandas NaN semantics. -/
def optLt : Option ℚ → Option ℚ → Bool
  | some a, some b => decide (a < b)
  | _, _ => false

/-- Elementwise `>=` with pandas NaN semantics. -/
def optGe : Option ℚ → Option ℚ → Bool
  | some a, some b => decide (b ≤ a)
  | _, _ => false

/-- Elementwise `>` with pandas NaN semantics. -/
def optGt : Option ℚ → Option ℚ → Bool
  | some a, some b => decide (b < a)
  | _, _ => false

/-- Elementwise `==`; a missing value equals nothing. -/
def optEq : Option ℚ → Option ℚ → Bool
  | some a, some b => decide (a = b)
  | _, _ => false

/-- Elementwise `!=`; NaN is unequal to everything (pandas `!=` is `True`
at missing entries). -/
def optNe : Option ℚ → Option ℚ → Bool
  | some a, some b => decide (a ≠ b)
  | _, _ => true

/-- `CROSS_ABOVE` at bar `t` (lines 121-126): previous value at-or-below,
current value strictly above. -/
def crossAboveAt (a b : Val) (t : ℕ) : Bool :=
  optLe (a.prevAtBar t) (b.prevAtBar t) && optGt (a.atBar t) (b.atBar t)

/-- `CROSS_BELOW` at bar `t` (lines 128-133): previous value at-or-above,
current value strictly below. -/
def crossBelowAt (a b : Val) (t : ℕ) : Bool :=
  optGe (a.prevAtBar t) (b.prevAtBar t) && optLt (a.atBar t) (b.atBar t)

/-- The index length of a series value, `none` for scalars. -/
def Val.lengthOpt : Val → Option ℕ
  | .series l => some l.length
  | .bseries l => some l.length
  | _ => none

/-- Elementwise boolean result with pandas-style broadcasting: a series
operand fixes the index length, two series are assumed index-aligned (all
series in one run come from the same frame), two scalars give a scalar. -/
def broadcastB (a b : Val) (g : ℕ → Bool) : Val :=
  match a.lengthOpt with
  | some n => .bseries ((List.range n).map g)
  | none =>
      match b.lengthOpt with
      | some n => .bseries ((List.range n).map g)
      | none => .bscalar (g 0)

/-- `left & right` on boolean operands; pandas raises for bitwise logic on
float operands, modelled as an error value. -/
def valAnd : Val → Val → Except String Val
  | .bscalar a, .bscalar b => .ok (.bscalar (a && b))
  | .bscalar a, .bseries l => .ok (.bseries (l.map (fun v => a && v)))
  | .bseries l, .bscalar b => .ok (.bseries (l.map (fun v => v && b)))
  | .bseries l1, .bseries l2 => .ok (.bseries (List.zipWith (fun u v => u && v) l1 l2))
  | _, _ => .error "TypeError: bitwise and on non-boolean operands"

/-- `left | right` on boolean operands. -/
def valOr : Val → Val → Except String Val
  | .bscalar a, .bscalar b => .ok (.bscalar (a || b))
  | .bscalar a, .bseries l => .ok (.bseries (l.map (fun v => a || v)))
  | .bseries l, .bscalar b => .ok (.bseries (l.map (fun v => v || b)))
  | .bseries l1, .bseries l2 => .ok (.bseries (List.zipWith (fun u v => u || v) l1 l2))
  | _, _ => .error "TypeError: bitwise or on non-boolean operands"

/-- The maximum of a list, `none` on the empty list. -/
def listMaxQ : List ℚ → Option ℚ
  | [] => none
  | x :: xs => some (xs.foldl max x)

/-- The trailing window `l[t+1-w .. t]` used by `rolling(window)`. -/
def windowSlice (l : List ℚ) (t w : ℕ) : List ℚ := (l.take (t + 1)).drop (t + 1 - w)

/-- `rolling(window).mean()` on a raw column: defined once `window` bars
exist (`min_periods` defaults to the window size), NaN before. -/
def rollingMeanRaw (l : List ℚ) (w : ℕ) : List (Option ℚ) :=
  (List.range l.length).map (fun t =>
    if 0 < w ∧ w ≤ t + 1 then some ((windowSlice l t w).sum / (w : ℚ)) else none)

/-- `rolling(window).min()` on a raw column (evaluator `min` branch,
src/python_code_generator.py lines 62-65). -/
def rollingMinRaw (l : List ℚ) (w : ℕ) : List (Option ℚ) :=
  (List.range l.length).map (fun t =>
    if 0 < w ∧ w ≤ t + 1 then listMinQ (windowSlice l t w) else none)

/-- `rolling(window).max()` on a raw column (evaluator `max` branch,
lines 68-71). -/
def rollingMaxRaw (l : List ℚ) (w : ℕ) : List (Option ℚ) :=
  (List.range l.length).map (fun t =>
    if 0 < w ∧ w ≤ t + 1 then listMaxQ (windowSlice l t w) else none)

/-- `compute_sma` (lines 6-8): a trailing simple moving average. -/
def compute_sma (l : List ℚ) (w : ℕ) : List (Option ℚ) := rollingMeanRaw l w

/-- The `adjust=False` EWM recurrence `y_t = (1-α)·y_{t-1} + α·x_t`. -/
def emaRec (a y : ℚ) : List ℚ → List ℚ
  | [] => []
  | x :: xs => ((1 - a) * y + a * x) :: emaRec a ((1 - a) * y + a * x) xs

/-- `compute_ema` (lines 11-13): `ewm(span=window, adjust=False).mean()`
with `α = 2 / (window + 1)`, seeded from the first value.  Raw columns
carry no NaN, so the output is total. -/
def compute_ema (l : List ℚ) (w : ℕ) : List (Option ℚ) :=
  match l with
  | [] => []
  | x :: xs => some x :: (emaRec (2 / ((w : ℚ) + 1)) x xs).map some

/-- `Series.diff()`: NaN at position 0, adjacent differences after. -/
def diffSeries (l : List ℚ) : List (Option ℚ) :=
  (List.range l.length).map (fun t =>
    if t = 0 then none else some (l.getD t 0 - l.getD (t - 1) 0))

/-- `rolling(window).mean()` over a series that may contain NaN: the window
mean is defined only when all `window` entries are present. -/
def rollingMeanOpt (l : List (Option ℚ)) (w : ℕ) : List (Option ℚ) :=
  (List.range l.length).map (fun t =>
    if 0 < w ∧ w ≤ t + 1 then
      (let win := (l.take (t + 1)).drop (t + 1 - w)
       if win.all Option.isSome then some ((win.filterMap id).sum / (w : ℚ)) else none)
    else none)

/-- One RSI point `100 - 100 / (1 + avg_gain / avg_loss)` with float
conventions: zero `avg_loss` with positive gain makes `rs = +inf` and the
RSI saturate at 100; `0 / 0` is NaN. -/
def rsiPoint : Option ℚ → Option ℚ → Option ℚ
  | some g, some l =>
      if l ≠ 0 then some (100 - 100 / (1 + g / l))
      else if g ≠ 0 then some 100
      else none
  | _, _ => none

/-- `compute_rsi` (lines 16-25): clipped deltas, trailing means, RSI
formula. -/
def compute_rsi (l : List ℚ) (w : ℕ) : List (Option ℚ) :=
  let delta := diffSeries l
  let gain := delta.map (Option.map (fun d => max d 0))
  let loss := delta.map (Option.map (fun d => max (-d) 0))
  List.zipWith rsiPoint (rollingMeanOpt gain w) (rollingMeanOpt loss w)

/-- `compute_pct_change` (lines 28-35): percentage change versus `window`
bars ago, NaN while no earlier value exists.  (pandas produces ±inf when
the base value is 0; that float corner is modelled with total ℚ division
and no theorem touches it.) -/
def compute_pct_change (l : List ℚ) (w : ℕ) : List (Option ℚ) :=
  (List.range l.length).map (fun t =>
    if w ≤ t then some ((l.getD t 0 - l.getD (t - w) 0) / l.getD (t - w) 0 * 100) else none)

/-- `Series.shift(periods)` (evaluator `shift` branch, lines 56-59). -/
def shiftSeries (l : List ℚ) (p : ℕ) : List (Option ℚ) :=
  (List.range l.length).map (fun t => if p ≤ t then some (l.getD (t - p) 0) else none)

/-- The evaluation cache of the run: the Python dict as an association
list, most recent binding first. -/
abbrev Cache := List (String × Val)

/-- The cache key `f"{name}_{source}_{window}"` (line 78).  The flat
underscore join makes distinct `(name, source)` pairs collide:
`sma(x_y, 5)` and `sma_x(y, 5)` both map to `"sma_x_y_5"`. -/
def indicatorKey (name source : String) (window : ℕ) : String :=
  name ++ "_" ++ source ++ "_" ++ toString window

/-- The operator dispatch of the `binary_op` branch (lines 95-135): the op
string is lowercased, then the logical, comparison and crossing operators
are tried in source order; any other string raises
`Unsupported operator`. -/
def apply_binary_op (op : String) (left right : Val) : Except String Val :=
  let opL := pyLower op
  if opL = "and" then valAnd left right
  else if opL = "or" then valOr left right
  else if opL = ">" then
    .ok (broadcastB left right (fun t => optGt (left.atBar t) (right.atBar t)))
  else if opL = "<" then
    .ok (broadcastB left right (fun t => optLt (left.atBar t) (right.atBar t)))
  else if opL = ">=" then
    .ok (broadcastB left right (fun t => optGe (left.atBar t) (right.atBar t)))
  else if opL = "<=" then
    .ok (broadcastB left right (fun t => optLe (left.atBar t) (right.atBar t)))
  else if opL = "==" then
    .ok (broadcastB left right (fun t => optEq (left.atBar t) (right.atBar t)))
  else if opL = "!=" then
    .ok (broadcastB left right (fun t => optNe (left.atBar t) (right.atBar t)))
  else if opL = "cross_above" then
    .ok (broadcastB left right (crossAboveAt left right))
  else if opL = "cross_below" then
    .ok (broadcastB left right (crossBelowAt left right))
  else .error ("Unsupported operator: " ++ opL)

/-- `generate_expression` (src/python_code_generator.py lines 40-137) with
the mutable cache threaded explicitly and children evaluated left before
right as in the source.  `df` maps column names to raw columns (a missing
column would raise a pandas KeyError; no claim depends on that, so unknown
columns default to the empty column).  The `Unknown AST node type` branch
of the source is unreachable over the closed node type. -/
def generate_expression : ASTNode → (String → List ℚ) → Cache →
    Except String (Val × Cache)
  | .series name, df, cache => .ok (.series ((df name).map some), cache)
  | .number v, _, cache => .ok (.scalar v, cache)
  | .shift field p, df, cache => .ok (.series (shiftSeries (df field) p), cache)
  | .min field w, df, cache => .ok (.series (rollingMinRaw (df field) w), cache)
  | .max field w, df, cache => .ok (.series (rollingMaxRaw (df field) w), cache)
  | .indicator name field param, df, cache =>
      let window := pyInt param
      let key := indicatorKey name field window
      match cache.lookup key with
      | some v => .ok (v, cache)
      | none =>
          if name = "sma" then
            let v := Val.series (compute_sma (df field) window)
            .ok (v, (key, v) :: cache)
          else if name = "ema" then
            let v := Val.series (compute_ema (df field) window)
            .ok (v, (key, v) :: cache)
          else if name = "rsi" then
            let v := Val.series (compute_rsi (df field) window)
            .ok (v, (key, v) :: cache)
          else if name = "pct_change" then
            let v := Val.series (compute_pct_change (df field) window)
            .ok (v, (key, v) :: cache)
          else .error ("Unsupported indicator: " ++ name)
  | .binary_op l op r, df, cache =>
      match generate_expression l df cache with
      | .error e => .error e
      | .ok (lv, c1) =>
          match generate_expression r df c1 with
          | .error e => .error e
          | .ok (rv, c2) =>
              match apply_binary_op op lv rv with
              | .error e => .error e
              | .ok v => .ok (v, c2)

/-- Discriminator for successful evaluation. -/
def exceptIsOk {e a : Type} : Except e a → Bool
  | .ok _ => true
  | .error _ => false

/-- **C6**: crossing symmetry.  For every pair of operand values (numeric or
boolean, scalar or series — scalars are constant across the one-bar shift)
and every bar `t`, `CROSS_ABOVE(a, b)` is true at `t` iff `CROSS_BELOW(b, a)`
is, where `crossAboveAt` is "previous at-or-below and current strictly
above" and `crossBelowAt` is the mirror. -/
theorem cross_above_below_symmetry (a b : Val) (t : ℕ) :
    crossAboveAt a b t = crossBelowAt b a t := by
  unfold crossAboveAt crossBelowAt
  have h1 : optLe (a.prevAtBar t) (b.prevAtBar t) =
      optGe (b.prevAtBar t) (a.prevAtBar t) := by
    cases a.prevAtBar t <;> cases b.prevAtBar t <;> simp [optLe, optGe]
  have h2 : optGt (a.atBar t) (b.atBar t) = optLt (b.atBar t) (a.atBar t) := by
    cases a.atBar t <;> cases b.atBar t <;> simp [optGt, optLt]
  rw [h1, h2]

/-- **C4** counterexample: the mixed casing `Cross_Above` is not an `OP`
token and `and`/`And` are not `LOGIC` tokens, so those casings do not parse
— the operator keywords are not accepted case-insensitively.  Moreover the
AST builder lowercases *function* names, so `SMA(close,20)` builds the same
node as `sma(close,20)`: function names are not case-sensitive. -/
theorem dsl_operator_casing_counterexample :
    ¬ OP_accepts "Cross_Above" ∧ ¬ LOGIC_accepts "and" ∧ ¬ LOGIC_accepts "And" ∧
    function_call "SMA" "close" 20 = function_call "sma" "close" 20 := by
  exact ⟨by decide, by decide, by decide, rfl⟩

/-- **C4** (amended): `AND`/`OR` are accepted only in uppercase;
`CROSS_ABOVE`/`CROSS_BELOW` are accepted in exactly the all-uppercase and
all-lowercase casings, both normalised by the `OP` callback to the same
lowercase AST operator; field names stay case-sensitive (distinct AST nodes
and distinct column lookups), while function names are normalised to
lowercase at build time and are therefore accepted case-insensitively. -/
theorem dsl_operator_casing_rules :
    (∀ s : String, LOGIC_accepts s ↔ (s = "AND" ∨ s = "OR")) ∧
    (OP_accepts "CROSS_ABOVE" ∧ OP_accepts "cross_above" ∧
     OP_build "CROSS_ABOVE" = "cross_above" ∧ OP_build "cross_above" = "cross_above" ∧
     OP_accepts "CROSS_BELOW" ∧ OP_accepts "cross_below" ∧
     OP_build "CROSS_BELOW" = "cross_below") ∧
    (ASTNode.series "Close" ≠ ASTNode.series "close" ∧
     generate_expression (ASTNode.series "Close") (fun s => if s = "close" then [1] else []) [] ≠
       generate_expression (ASTNode.series "close") (fun s => if s = "close" then [1] else []) []) ∧
    (function_call "SMA" "close" 20 = ASTNode.indicator "sma" "close" 20 ∧
     function_call "Sma" "close" 20 = function_call "sma" "close" 20) := by
  refine ⟨?_, ⟨by decide, by decide, rfl, rfl, by decide, by decide, rfl⟩,
    ⟨by decide, ?_⟩, rfl, rfl⟩
  · intro s
    simp [LOGIC_accepts, LOGIC_tokens]
  · intro hcontr
    simp only [generate_expression] at hcontr
    simp at hcontr

/-- **C5** counterexample: the flat cache key collides inside one run.
Evaluating `sma(x_y,5) > 0 AND sma_x(y,5) > 0` from a fresh cache first
stores key `"sma_x_y_5"` for `sma(x_y,5)`; the unsupported indicator
`sma_x(y,5)` maps to the same key, hits the cache, and the whole evaluation
succeeds — no "unsupported indicator" error is raised, although evaluating
the same `sma_x` node with a fresh cache does fail. -/
theorem unsupported_indicator_cache_collision :
    indicatorKey "sma" "x_y" (pyInt 5) = indicatorKey "sma_x" "y" (pyInt 5) ∧
    generate_expression (ASTNode.indicator "sma_x" "y" 5) (fun _ => [1, 2, 3, 4, 5]) [] =
      .error ("Unsupported indicator: " ++ "sma_x") ∧
    exceptIsOk (generate_expression
        (ASTNode.binary_op
          (ASTNode.binary_op (ASTNode.indicator "sma" "x_y" 5) ">" (ASTNode.number 0))
          "AND"
          (ASTNode.binary_op (ASTNode.indicator "sma_x" "y" 5) ">" (ASTNode.number 0)))
        (fun _ => [1, 2, 3, 4, 5]) []) = true := by
  refine ⟨rfl, rfl, rfl⟩

/-- **C5** (amended): the AST builder accepts any function name (an unknown
name simply becomes an indicator node), and evaluating an indicator node
whose name is not sma/ema/rsi/pct_change fails with
`Unsupported indicator: <name>` *provided* the run cache holds no binding
for the flat key `name_field_window` of the node; with a fresh (empty) cache
this always holds, but a colliding key stored earlier in the same run can
mask the error (see the counterexample). -/
theorem unsupported_indicator_evaluation :
    (∀ (name field : String) (param : ℚ),
        pyLower name ≠ "min" → pyLower name ≠ "max" →
        function_call name field param = ASTNode.indicator (pyLower name) field param) ∧
    (∀ (name field : String) (param : ℚ) (df : String → List ℚ) (cache : Cache),
        name ≠ "sma" → name ≠ "ema" → name ≠ "rsi" → name ≠ "pct_change" →
        cache.lookup (indicatorKey name field (pyInt param)) = none →
        generate_expression (ASTNode.indicator name field param) df cache =
          .error ("Unsupported indicator: " ++ name)) := by
  constructor
  · intro name field param h1 h2
    simp [function_call, h1, h2]
  · intro name field param df cache h1 h2 h3 h4 h5
    simp only [generate_expression, h5]
    simp [h1, h2, h3, h4]

/-- Witness for `unsupported_indicator_evaluation`: the unknown indicator
`macd` parses into an indicator node and fails at evaluation time with a
fresh cache. -/
theorem unsupported_indicator_evaluation_witness :
    function_call "macd" "close" 12 = ASTNode.indicator (pyLower "macd") "close" 12 ∧
    generate_expression (ASTNode.indicator "macd" "close" 12) (fun _ => []) [] =
      .error ("Unsupported indicator: " ++ "macd") :=
  ⟨unsupported_indicator_evaluation.1 "macd" "close" 12 (by decide) (by decide),
   unsupported_indicator_evaluation.2 "macd" "close" 12 (fun _ => []) [] (by decide)
     (by decide) (by decide) (by decide) rfl⟩

/-- **C10**: the grammar accepts `rise_above` and `drop_below` (lowercase
only — the uppercase spellings are not `OP` tokens), a condition built with
them is a `binary_op` node carrying that operator string, and the evaluator
rejects them: `apply_binary_op` raises `Unsupported operator` for them on
any operand values, so evaluating any such `binary_op` node fails — with
exactly that message whenever both operands themselves evaluate (an operand
that itself fails propagates its own error message first). -/
theorem rise_drop_below_unsupported_operator :
    OP_accepts "rise_above" ∧ OP_accepts "drop_below" ∧
    ¬ OP_accepts "RISE_ABOVE" ∧ ¬ OP_accepts "DROP_BELOW" ∧
    (∀ (left right : ASTNode),
        condition_build left "rise_above" right =
          ASTNode.binary_op left "rise_above" right ∧
        condition_build left "drop_below" right =
          ASTNode.binary_op left "drop_below" right) ∧
    (∀ (op : String), op = "rise_above" ∨ op = "drop_below" →
      (∀ (lv rv : Val),
          apply_binary_op op lv rv = .error ("Unsupported operator: " ++ op)) ∧
      (∀ (l r : ASTNode) (df : String → List ℚ) (cache : Cache),
          ∃ msg, generate_expression (ASTNode.binary_op l op r) df cache =
            .error msg)) := by
  refine ⟨by decide, by decide, by decide, by decide, fun left right => ⟨rfl, rfl⟩, ?_⟩
  intro op hop
  have happ : ∀ (lv rv : Val),
      apply_binary_op op lv rv = .error ("Unsupported operator: " ++ op) := by
    rcases hop with h | h <;> subst h <;> exact fun lv rv => rfl
  refine ⟨happ, ?_⟩
  intro l r df cache
  simp only [generate_expression]
  cases hL : generate_expression l df cache with
  | error e => exact ⟨e, rfl⟩
  | ok p =>
      obtain ⟨lv, c1⟩ := p
      dsimp only
      cases hR : generate_expression r df c1 with
      | error e => exact ⟨e, rfl⟩
      | ok q =>
          obtain ⟨rv, c2⟩ := q
          dsimp only
          rw [happ lv rv]
          exact ⟨"Unsupported operator: " ++ op, rfl⟩

/-- Witness for `rise_drop_below_unsupported_operator` on concrete scalar
operands and a concrete two-literal condition. -/
theorem rise_drop_below_unsupported_operator_witness :
    apply_binary_op "rise_above" (Val.scalar 5) (Val.scalar 3) =
      .error ("Unsupported operator: " ++ "rise_above") ∧
    (∃ msg, generate_expression
        (ASTNode.binary_op (ASTNode.number 5) "drop_below" (ASTNode.number 3))
        (fun _ => []) [] = .error msg) :=
  ⟨(rise_drop_below_unsupported_operator.2.2.2.2.2 "rise_above" (Or.inl rfl)).1
      (Val.scalar 5) (Val.scalar 3),
   (rise_drop_below_unsupported_operator.2.2.2.2.2 "drop_below" (Or.inr rfl)).2
      (ASTNode.number 5) (ASTNode.number 3) (fun _ => []) []⟩

/-- Witness for `dsl_operator_casing_rules` at the concrete token `AND`. -/
theorem dsl_operator_casing_rules_witness :
    LOGIC_accepts "AND" ↔ ("AND" = "AND" ∨ "AND" = "OR") :=
  dsl_operator_casing_rules.1 "AND"
